import Mathlib

/-!
Verification of the DDIM diffuser core
(`diffusion_models/gaussian_diffusion/ddimm_diffuser.py`).

The embedding models:
* the step subsampler (`DdimDiffuser.steps`), including the Python
  exceptions it can raise, as `buildSchedule`;
* the forward diffusion step (`DdimDiffuser._diffuse_batch`) and the DDIM
  reverse step (`DdimDiffuser._denoise_step`) as pointwise real arithmetic
  on tensors modelled as functions `B → I → ℝ` (batch index, in-sample
  index); randomness (`torch.randn_like`) is modelled by passing the drawn
  noise tensors explicitly;
* the sampling loop (`DdimDiffuser.denoise_batch`) as a recursion over the
  reversed step indices `S-1, …, 0`.

Floating point is idealised as exact real arithmetic; in quadratic mode the
indices `floor(linspace(0, sqrt(0.8 T), S)^2)` are computed exactly as
`4 k² T / (5 (S-1)²)` with natural division.  All concrete evaluations used
below were chosen so that the float computation agrees with the exact one.
-/

namespace DDF

/-- The two subsampling modes of `DenoisingMode` in the source. -/
inductive DenoisingMode
  | linear
  | quadratic
deriving DecidableEq, Repr

/-- Python `list(range(0, stop, step))` for a positive `step`:
the multiples of `step` below `stop`, i.e. `ceil(stop/step)` entries. -/
def rangeStep (stop step : ℕ) : List ℕ :=
  (List.range ((stop + step - 1) / step)).map (· * step)

/-- Linear-mode raw indices: `range(0, T, T // S)`
(source line `time_steps = np.asarray(list(range(0, self.beta_scheduler.steps, a)))`). -/
def linearRaw (T S : ℕ) : List ℕ :=
  rangeStep T (T / S)

/-- Quadratic-mode raw indices:
`(np.linspace(0, np.sqrt(T * 0.8), S) ** 2).astype(int)`, computed in exact
arithmetic: the `k`-th linspace value is `k·sqrt(0.8·T)/(S-1)`, whose square
is `k²·(4T/5)/(S-1)²`, truncated to an integer. -/
def quadRaw (T S : ℕ) : List ℕ :=
  (List.range S).map (fun k => 4 * k ^ 2 * T / (5 * (S - 1) ^ 2))

/-- The raw (unshifted) subsampled indices for either mode. -/
def rawSteps (T S : ℕ) : DenoisingMode → List ℕ
  | DenoisingMode.linear => linearRaw T S
  | DenoisingMode.quadratic => quadRaw T S

/-- The `DdimDiffuser.steps` property as a schedule builder: it returns the
cached pair `(_time_steps, _time_steps_prev) = (raw + 1, concat([[0], raw[:-1]]))`,
or the Python exception the property raises.  In linear mode, `T // S` with
`S = 0` raises `ZeroDivisionError`, and `range(0, T, a)` with `a = 0` raises
`ValueError`; quadratic mode raises nothing for a natural-number step count. -/
def buildSchedule (T S : ℕ) (mode : DenoisingMode) : Except String (List ℕ × List ℕ) :=
  match mode with
  | DenoisingMode.linear =>
    if S = 0 then
      Except.error "ZeroDivisionError: integer division or modulo by zero"
    else if T / S = 0 then
      Except.error "ValueError: range() arg 3 must not be zero"
    else
      let raw := linearRaw T S
      Except.ok (raw.map (· + 1), 0 :: raw.dropLast)
  | DenoisingMode.quadratic =>
      let raw := quadRaw T S
      Except.ok (raw.map (· + 1), 0 :: raw.dropLast)

noncomputable section

/-- A batch tensor: batch index `B`, flattened in-sample index `I`,
real entries. -/
abbrev Tensor (B I : Type) := B → I → ℝ

/-- A noise-predictor (`model(images, timestep)` in the source): a function
of the sample batch and the per-sample current timesteps, returning a tensor
of the sample's shape. -/
abbrev Model (B I : Type) := Tensor B I → (B → ℕ) → Tensor B I

/-- `torch.clamp(images, -1.0, 1.0)`, element-wise. -/
def clampUnit {B I : Type} (x : Tensor B I) : Tensor B I :=
  fun b i => min (max (x b i) (-1)) 1

/-- `DdimDiffuser._diffuse_batch`: gather `alpha_bar_t` per sample, broadcast
it over the non-batch dimensions, and return
`(sqrt(abar)*images + sqrt(1-abar)*noise, noise, timesteps)`.
The drawn `torch.randn_like` noise is the explicit argument `noise`. -/
def diffuseBatch {B I : Type} (alphaBars : ℕ → ℝ) (images : Tensor B I)
    (timesteps : B → ℕ) (noise : Tensor B I) :
    Tensor B I × Tensor B I × (B → ℕ) :=
  ((fun b i =>
      Real.sqrt (alphaBars (timesteps b)) * images b i
        + Real.sqrt (1 - alphaBars (timesteps b)) * noise b i),
   noise, timesteps)

/-- `DdimDiffuser._denoise_step`: the DDIM reverse update.  The fresh noise
`torch.randn_like(images)` is the explicit argument `freshNoise`. -/
def denoiseStep {B I : Type} (alphaBars : ℕ → ℝ) (images : Tensor B I)
    (model : Model B I) (tCur tPrev : B → ℕ) (eta : ℝ)
    (freshNoise : Tensor B I) : Tensor B I :=
  let epsilonTheta := model images tCur
  fun b i =>
    let abar := alphaBars (tCur b)
    let abarPrev := alphaBars (tPrev b)
    let sigma := eta * Real.sqrt ((1 - abarPrev) / (1 - abar) * (1 - abar / abarPrev))
    let mu := Real.sqrt (abarPrev / abar) * images b i
      + (Real.sqrt (1 - abarPrev - sigma ^ 2)
          - Real.sqrt (abarPrev * (1 - abar) / abar)) * epsilonTheta b i
    mu + sigma * freshNoise b i

/-- The loop body of `DdimDiffuser.denoise_batch`, iterating the step
indices `S-1, S-2, …, 0` (the source's `list(range(S))[::-1]`).  At loop
index `i` the timestep pair is the broadcast `(_time_steps[i],
_time_steps_prev[i])`; `_denoise_step` is called without an `eta` argument,
i.e. with its default `eta = 0`; the result is clamped to `[-1, 1]` and
appended.  `noise i` is the fresh noise drawn inside the step at index `i`. -/
def denoiseLoop {B I : Type} (alphaBars : ℕ → ℝ) (model : Model B I)
    (ts tsp : List ℕ) (noise : ℕ → Tensor B I) :
    ℕ → Tensor B I → List (Tensor B I)
  | 0, _ => []
  | i + 1, images =>
    let images' := clampUnit (denoiseStep alphaBars images model
      (fun _ => ts.getD i 0) (fun _ => tsp.getD i 0) 0 (noise i))
    images' :: denoiseLoop alphaBars model ts tsp noise i images'

/-- `DdimDiffuser.denoise_batch` with `number_of_steps = S` and cached
schedule `(ts, tsp)`: the trajectory of clamped reverse steps, most noisy
first. -/
def denoiseBatch {B I : Type} (alphaBars : ℕ → ℝ) (model : Model B I)
    (ts tsp : List ℕ) (S : ℕ) (images : Tensor B I)
    (noise : ℕ → Tensor B I) : List (Tensor B I) :=
  denoiseLoop alphaBars model ts tsp noise S images

/-! Spec-side mirror definitions, written from the specification's words, to
be compared with the source-side definitions above. -/

/-- Spec: `sigma = eta * sqrt((1 - alpha_bar_t_prev) / (1 - alpha_bar_t)
* (1 - alpha_bar_t / alpha_bar_t_prev))`. -/
def specSigma (abarT abarPrev eta : ℝ) : ℝ :=
  eta * Real.sqrt ((1 - abarPrev) / (1 - abarT) * (1 - abarT / abarPrev))

/-- Spec: `mu = sqrt(alpha_bar_t_prev / alpha_bar_t) * sample
+ (sqrt(1 - alpha_bar_t_prev - sigma^2)
- sqrt(alpha_bar_t_prev * (1 - alpha_bar_t) / alpha_bar_t)) * predicted_noise`. -/
def specMu (abarT abarPrev eta sample predictedNoise : ℝ) : ℝ :=
  Real.sqrt (abarPrev / abarT) * sample
    + (Real.sqrt (1 - abarPrev - specSigma abarT abarPrev eta ^ 2)
        - Real.sqrt (abarPrev * (1 - abarT) / abarT)) * predictedNoise

/-- Spec: the forward diffuser outputs `retained * data + injected * noise`
with `retained = sqrt(alpha_bars[t])` and `injected = sqrt(1 - alpha_bars[t])`,
the per-sample scalars broadcast across all non-batch dimensions. -/
def specForwardNoised {B I : Type} (alphaBars : ℕ → ℝ) (data : Tensor B I)
    (t : B → ℕ) (noise : Tensor B I) : Tensor B I :=
  fun b i =>
    let retained := Real.sqrt (alphaBars (t b))
    let injected := Real.sqrt (1 - alphaBars (t b))
    retained * data b i + injected * noise b i

/-- The deterministic mean term `mu` of the reverse step at `eta = 0`
(so `sigma = 0` and `sqrt(1 - abar_prev - sigma²) = sqrt(1 - abar_prev)`). -/
def ddimMuZero {B I : Type} (alphaBars : ℕ → ℝ) (images : Tensor B I)
    (model : Model B I) (tCur tPrev : B → ℕ) : Tensor B I :=
  fun b i =>
    let abar := alphaBars (tCur b)
    let abarPrev := alphaBars (tPrev b)
    Real.sqrt (abarPrev / abar) * images b i
      + (Real.sqrt (1 - abarPrev)
          - Real.sqrt (abarPrev * (1 - abar) / abar)) * model images tCur b i

/-- The noise-free reference trajectory: at each step index the clamped
deterministic mean term, iterated over `S-1, …, 0`. -/
def detLoop {B I : Type} (alphaBars : ℕ → ℝ) (model : Model B I)
    (ts tsp : List ℕ) : ℕ → Tensor B I → List (Tensor B I)
  | 0, _ => []
  | i + 1, images =>
    let images' := clampUnit (ddimMuZero alphaBars images model
      (fun _ => ts.getD i 0) (fun _ => tsp.getD i 0))
    images' :: detLoop alphaBars model ts tsp i images'

end

/-! ## Theorems -/

/-- C7: for `T = 1000`, `S = 20`, linear mode, the cached subsampled
schedule's `time_steps` is exactly `[1, 51, 101, …, 951]` (stride 50, each
raw index shifted by `+1`). -/
theorem linear_schedule_1000_20 :
    buildSchedule 1000 20 DenoisingMode.linear =
      Except.ok
        ([1, 51, 101, 151, 201, 251, 301, 351, 401, 451, 501, 551, 601, 651,
          701, 751, 801, 851, 901, 951],
         [0, 0, 50, 100, 150, 200, 250, 300, 350, 400, 450, 500, 550, 600,
          650, 700, 750, 800, 850, 900]) := by
  rfl

/-- C4 counterexample: with `T = 10`, `S = 3` (so `0 < S < T`), linear mode
builds `time_steps = [1, 4, 7, 10]` of length `4 ≠ 3`: the subsampler does
not always return sequences of length exactly `S`. -/
theorem subsample_length_cex :
    buildSchedule 10 3 DenoisingMode.linear =
        Except.ok ([1, 4, 7, 10], [0, 0, 3, 6])
      ∧ ([1, 4, 7, 10] : List ℕ).length ≠ 3 := by
  exact ⟨rfl, by decide⟩

/-- C5 counterexample: with `T = 10`, `S = 10` (so `S ≥ T`), quadratic mode
builds a schedule without raising any error, so the configuration `S ≥ T` is
not rejected at schedule-build time. -/
theorem validation_missing_cex :
    (10 : ℕ) ≤ 10
    ∧ buildSchedule 10 10 DenoisingMode.quadratic =
        Except.ok ([1, 1, 1, 1, 2, 3, 4, 5, 7, 9],
                   [0, 0, 0, 0, 0, 1, 2, 3, 4, 6]) := by
  exact ⟨by decide, rfl⟩

/-- C6 counterexample: with `T = 10`, `S = 2`, linear mode, the schedule is
`time_steps = [1, 6]`, `time_steps_prev = [0, 0]`, and
`time_steps_prev[1] = 0 ≠ 1 = time_steps[0]`: element `k` of
`time_steps_prev` is not `time_steps[k-1]`. -/
theorem prev_shift_cex :
    buildSchedule 10 2 DenoisingMode.linear = Except.ok ([1, 6], [0, 0])
      ∧ ([0, 0] : List ℕ).getD 1 0 ≠ ([1, 6] : List ℕ).getD 0 0 := by
  exact ⟨rfl, by decide⟩

/-- C10 counterexample: with `T = 5`, `S = 4` (so `0 < S < T`), quadratic
mode builds `time_steps = [1, 1, 2, 5]`, and the entry `5` (at position
`S - 1 = 3`, which the sampling loop does read) is not a valid index into
the length-5 `alpha_bars` sequence. -/
theorem step_bound_cex :
    buildSchedule 5 4 DenoisingMode.quadratic =
        Except.ok ([1, 1, 2, 5], [0, 0, 0, 1])
      ∧ (5 : ℕ) ∈ ([1, 1, 2, 5] : List ℕ) ∧ ¬ ((5 : ℕ) ≤ 5 - 1) := by
  exact ⟨rfl, by decide, by decide⟩

/-- C1: the DDIM reverse step returns `mu + sigma * fresh_noise` where
`sigma` and `mu` are exactly the spec's formulas in
`alpha_bars[current]`, `alpha_bars[previous]`, `eta`, the sample and the
noise-predictor output `epsilon_theta = model(images, current)`. -/
theorem denoise_step_spec {B I : Type} (alphaBars : ℕ → ℝ) (images : Tensor B I)
    (model : Model B I) (tCur tPrev : B → ℕ) (eta : ℝ)
    (freshNoise : Tensor B I) (b : B) (i : I) :
    denoiseStep alphaBars images model tCur tPrev eta freshNoise b i =
      specMu (alphaBars (tCur b)) (alphaBars (tPrev b)) eta (images b i)
          (model images tCur b i)
        + specSigma (alphaBars (tCur b)) (alphaBars (tPrev b)) eta
            * freshNoise b i := by
  rfl

/-- C2: forward diffusion returns the triple
`(sqrt(alpha_bars[t]) * data + sqrt(1 - alpha_bars[t]) * noise, noise, t)`:
the first component is the spec's `retained * data + injected * noise` with
the per-sample coefficients broadcast over non-batch dimensions, the second
is exactly the drawn noise, and the third exactly the timesteps used. -/
theorem diffuse_batch_spec {B I : Type} (alphaBars : ℕ → ℝ) (data : Tensor B I)
    (t : B → ℕ) (noise : Tensor B I) :
    diffuseBatch alphaBars data t noise =
      (specForwardNoised alphaBars data t noise, noise, t) := by
  rfl

/-- With `eta = 0` the stochasticity term vanishes and the reverse step
reduces to the deterministic mean term, independently of the fresh noise. -/
lemma denoiseStep_eta_zero {B I : Type} (alphaBars : ℕ → ℝ)
    (images : Tensor B I) (model : Model B I) (tCur tPrev : B → ℕ)
    (freshNoise : Tensor B I) :
    denoiseStep alphaBars images model tCur tPrev 0 freshNoise =
      ddimMuZero alphaBars images model tCur tPrev := by
  funext b i
  simp [denoiseStep, ddimMuZero]

/-- The sampling loop with `eta = 0` equals the noise-free reference loop,
for every stream of fresh per-step noise. -/
lemma denoiseLoop_eq_detLoop {B I : Type} (alphaBars : ℕ → ℝ)
    (model : Model B I) (ts tsp : List ℕ) (noise : ℕ → Tensor B I) :
    ∀ (S : ℕ) (images : Tensor B I),
      denoiseLoop alphaBars model ts tsp noise S images =
        detLoop alphaBars model ts tsp S images := by
  intro S
  induction S with
  | zero => intro images; rfl
  | succ n ih =>
    intro images
    simp only [denoiseLoop, detLoop, denoiseStep_eta_zero]
    rw [ih]

/-- C3: with `eta = 0` (the value `denoise_batch` always passes), two runs
of the sampling loop from identical initial noise with the same
noise-predictor yield identical trajectories, whatever fresh noise each run
draws inside its reverse steps. -/
theorem denoise_batch_deterministic {B I : Type} (alphaBars : ℕ → ℝ)
    (model : Model B I) (ts tsp : List ℕ) (S : ℕ) (images : Tensor B I)
    (noise₁ noise₂ : ℕ → Tensor B I) :
    denoiseBatch alphaBars model ts tsp S images noise₁ =
      denoiseBatch alphaBars model ts tsp S images noise₂ :=
  (denoiseLoop_eq_detLoop alphaBars model ts tsp noise₁ S images).trans
    (denoiseLoop_eq_detLoop alphaBars model ts tsp noise₂ S images).symm

/-- C9: the sampling loop calls the reverse step only with its default
`eta = 0`, so its trajectory is the clamped deterministic mean trajectory,
with no dependence on the drawn noise: callers cannot obtain a stochastic
trajectory through `denoise_batch`. -/
theorem denoise_batch_eta_zero {B I : Type} (alphaBars : ℕ → ℝ)
    (model : Model B I) (ts tsp : List ℕ) (S : ℕ) (images : Tensor B I)
    (noise : ℕ → Tensor B I) :
    denoiseBatch alphaBars model ts tsp S images noise =
      detLoop alphaBars model ts tsp S images :=
  denoiseLoop_eq_detLoop alphaBars model ts tsp noise S images

/-- Element-wise bounds of `torch.clamp(·, -1.0, 1.0)`. -/
lemma clampUnit_bounds {B I : Type} (x : Tensor B I) (b : B) (i : I) :
    -1 ≤ clampUnit x b i ∧ clampUnit x b i ≤ 1 :=
  ⟨le_min (le_max_right _ _) (by norm_num), min_le_right _ _⟩

/-- Every tensor appended by the sampling loop has been clamped to
`[-1, 1]`. -/
lemma mem_denoiseLoop_bounds {B I : Type} (alphaBars : ℕ → ℝ)
    (model : Model B I) (ts tsp : List ℕ) (noise : ℕ → Tensor B I) :
    ∀ (S : ℕ) (images y : Tensor B I),
      y ∈ denoiseLoop alphaBars model ts tsp noise S images →
        ∀ (b : B) (i : I), -1 ≤ y b i ∧ y b i ≤ 1 := by
  intro S
  induction S with
  | zero => intro images y hy; simp [denoiseLoop] at hy
  | succ n ih =>
    intro images y hy
    simp only [denoiseLoop, List.mem_cons] at hy
    rcases hy with h | h
    · subst h; exact clampUnit_bounds _
    · exact ih _ y h

/-- C8: every element of every entry of the trajectory returned by the
sampling loop lies within `[-1, 1]`. -/
theorem trajectory_clamped {B I : Type} (alphaBars : ℕ → ℝ)
    (model : Model B I) (ts tsp : List ℕ) (S : ℕ) (images : Tensor B I)
    (noise : ℕ → Tensor B I) (y : Tensor B I)
    (hy : y ∈ denoiseBatch alphaBars model ts tsp S images noise)
    (b : B) (i : I) :
    -1 ≤ y b i ∧ y b i ≤ 1 :=
  mem_denoiseLoop_bounds alphaBars model ts tsp noise S images y hy b i

/-- C8 witness: a one-step trajectory from zero initial noise with the
identity noise-predictor; its single entry is bounded by `[-1, 1]`. -/
theorem trajectory_clamped_witness :
    -1 ≤ clampUnit (B := Unit) (I := Unit)
        (denoiseStep (fun _ => 0) (fun _ _ => 0) (fun x _ => x)
          (fun _ => ([1] : List ℕ).getD 0 0) (fun _ => ([0] : List ℕ).getD 0 0)
          0 (fun _ _ => 0)) () ()
    ∧ clampUnit (B := Unit) (I := Unit)
        (denoiseStep (fun _ => 0) (fun _ _ => 0) (fun x _ => x)
          (fun _ => ([1] : List ℕ).getD 0 0) (fun _ => ([0] : List ℕ).getD 0 0)
          0 (fun _ _ => 0)) () () ≤ 1 :=
  trajectory_clamped (fun _ => 0) (fun x _ => x) [1] [0] 1 (fun _ _ => 0)
    (fun _ => fun _ _ => 0) _ (List.Mem.head _) () ()

/-! Helper lemmas about the subsampled schedule. -/

lemma rangeStep_length (stop step : ℕ) :
    (rangeStep stop step).length = (stop + step - 1) / step := by
  simp [rangeStep]

lemma rangeStep_getD (stop step k : ℕ)
    (h : k < (stop + step - 1) / step) :
    (rangeStep stop step).getD k 0 = k * step := by
  rw [rangeStep,
    List.getD_eq_getElem _ _ (by simpa [rangeStep_length, rangeStep])]
  simp

lemma quadRaw_length (T S : ℕ) : (quadRaw T S).length = S := by
  simp [quadRaw]

lemma linear_count_ge (T S : ℕ) (hS : 0 < S) (hTS : S ≤ T) :
    S ≤ (T + T / S - 1) / (T / S) := by
  have ha : 0 < T / S := Nat.div_pos hTS hS
  rw [Nat.le_div_iff_mul_le ha]
  have h1 : S * (T / S) ≤ T := by
    rw [mul_comm]; exact Nat.div_mul_le_self T S
  omega

lemma rangeStep_sorted_lt (stop step : ℕ) (h : 0 < step) :
    List.Sorted (· < ·) ((rangeStep stop step).map (· + 1)) := by
  simp only [rangeStep, List.map_map]
  rw [List.Sorted, List.pairwise_map]
  exact (List.pairwise_lt_range _).imp
    (fun hab => Nat.add_lt_add_right (Nat.mul_lt_mul_of_lt_of_le hab le_rfl h) 1)

lemma quadRaw_sorted_le (T S : ℕ) :
    List.Sorted (· ≤ ·) ((quadRaw T S).map (· + 1)) := by
  simp only [quadRaw, List.map_map]
  rw [List.Sorted, List.pairwise_map]
  exact (List.pairwise_lt_range _).imp
    (fun hab => Nat.add_le_add_right
      (Nat.div_le_div_right
        (Nat.mul_le_mul_right _
          (Nat.mul_le_mul_left _ (Nat.pow_le_pow_left hab.le 2)))) 1)

/-- C4 amended: for `0 < S < T`, the schedule always builds; in quadratic
mode both sequences have length exactly `S` and `time_steps` is
non-decreasing (not strictly increasing in general); in linear mode both
sequences have length `⌈T / (T // S)⌉ = (T + T//S - 1) / (T//S)`, which is
at least `S` but can exceed it, and `time_steps` is strictly increasing. -/
theorem subsample_lengths (T S : ℕ) (hS : 0 < S) (hT : S < T) :
    (∃ ts tsp, buildSchedule T S DenoisingMode.quadratic = Except.ok (ts, tsp)
      ∧ ts.length = S ∧ tsp.length = S ∧ List.Sorted (· ≤ ·) ts)
    ∧ (∃ ts tsp, buildSchedule T S DenoisingMode.linear = Except.ok (ts, tsp)
      ∧ ts.length = (T + T / S - 1) / (T / S)
      ∧ tsp.length = (T + T / S - 1) / (T / S)
      ∧ S ≤ ts.length ∧ List.Sorted (· < ·) ts) := by
  have ha : 0 < T / S := Nat.div_pos hT.le hS
  constructor
  · refine ⟨_, _, rfl, ?_, ?_, quadRaw_sorted_le T S⟩
    · simp [quadRaw]
    · simp [List.length_dropLast, quadRaw_length]; omega
  · refine ⟨(linearRaw T S).map (· + 1), 0 :: (linearRaw T S).dropLast,
      ?_, ?_, ?_, ?_, rangeStep_sorted_lt T (T / S) ha⟩
    · simp [buildSchedule, hS.ne', ha.ne']
    · simp [linearRaw, rangeStep_length]
    · have hlen : S ≤ (linearRaw T S).length := by
        rw [linearRaw, rangeStep_length]
        exact linear_count_ge T S hS hT.le
      simp only [List.length_cons, List.length_dropLast, linearRaw,
        rangeStep_length] at *
      omega
    · rw [List.length_map, linearRaw, rangeStep_length]
      exact linear_count_ge T S hS hT.le

/-- C4 witness: at `T = 7`, `S = 2`, `T // S = 3`, linear mode gives
sequences of length `(7 + 3 - 1) / 3 = 3 > 2`. -/
theorem subsample_lengths_witness :
    ((∃ ts tsp, buildSchedule 7 2 DenoisingMode.quadratic = Except.ok (ts, tsp)
      ∧ ts.length = 2 ∧ tsp.length = 2 ∧ List.Sorted (· ≤ ·) ts)
    ∧ (∃ ts tsp, buildSchedule 7 2 DenoisingMode.linear = Except.ok (ts, tsp)
      ∧ ts.length = (7 + 7 / 2 - 1) / (7 / 2)
      ∧ tsp.length = (7 + 7 / 2 - 1) / (7 / 2)
      ∧ 2 ≤ ts.length ∧ List.Sorted (· < ·) ts)) :=
  subsample_lengths 7 2 (by decide) (by decide)

/-- `time_steps_prev = concat([[0], raw[:-1]])` against
`time_steps = raw + 1`: same length, first element `0`, and element `k ≥ 1`
equals `time_steps[k-1] - 1`. -/
lemma shifted_prev_spec (raw : List ℕ) (hraw : 0 < raw.length) :
    (0 :: raw.dropLast).length = (raw.map (· + 1)).length
    ∧ (0 :: raw.dropLast).getD 0 0 = 0
    ∧ ∀ k, 1 ≤ k → k < (raw.map (· + 1)).length →
        (0 :: raw.dropLast).getD k 0 = (raw.map (· + 1)).getD (k - 1) 0 - 1 := by
  refine ⟨by simp only [List.length_cons, List.length_dropLast,
    List.length_map]; omega, rfl, ?_⟩
  intro k hk1 hk2
  simp only [List.length_map] at hk2
  obtain ⟨j, rfl⟩ : ∃ j, k = j + 1 := ⟨k - 1, by omega⟩
  rw [List.getD_cons_succ]
  have hj : j < raw.dropLast.length := by
    simp only [List.length_dropLast]; omega
  have hjm : j + 1 - 1 < (raw.map (· + 1)).length := by
    simp only [List.length_map]; omega
  rw [List.getD_eq_getElem _ _ hj, List.getD_eq_getElem _ _ hjm]
  simp only [Nat.add_sub_cancel, List.getElem_map, List.getElem_dropLast]

/-- C6 amended: whenever the schedule builds with `S ≥ 1`,
`time_steps_prev` has the same length as `time_steps`, its element 0 is 0,
and for `k ≥ 1` its element `k` equals `time_steps[k-1] - 1` (the raw
unshifted index), not `time_steps[k-1]`. -/
theorem prev_schedule_spec (T S : ℕ) (mode : DenoisingMode) (ts tsp : List ℕ)
    (hS : 0 < S) (h : buildSchedule T S mode = Except.ok (ts, tsp)) :
    tsp.length = ts.length ∧ tsp.getD 0 0 = 0
    ∧ ∀ k, 1 ≤ k → k < ts.length → tsp.getD k 0 = ts.getD (k - 1) 0 - 1 := by
  cases mode with
  | linear =>
    by_cases h0 : S = 0
    · simp [buildSchedule, h0] at h
    by_cases h1 : T / S = 0
    · simp [buildSchedule, h0, h1] at h
    · simp only [buildSchedule, if_neg h0, if_neg h1, Except.ok.injEq,
        Prod.mk.injEq] at h
      obtain ⟨hts, htsp⟩ := h
      subst hts; subst htsp
      apply shifted_prev_spec
      rw [linearRaw, rangeStep_length]
      have ha : 0 < T / S := Nat.pos_of_ne_zero h1
      have hT : S ≤ T := (Nat.one_le_div_iff hS).mp ha
      exact Nat.div_pos (by omega) ha
  | quadratic =>
    simp only [buildSchedule, Except.ok.injEq, Prod.mk.injEq] at h
    obtain ⟨hts, htsp⟩ := h
    subst hts; subst htsp
    apply shifted_prev_spec
    rw [quadRaw_length]
    exact hS

/-- C6 witness: at `T = 8`, `S = 2`, linear mode, the schedule is
`([1, 5], [0, 0])` and the relations hold (`tsp[1] = 0 = ts[0] - 1`). -/
theorem prev_schedule_spec_witness :
    ([0, 0] : List ℕ).length = ([1, 5] : List ℕ).length
    ∧ ([0, 0] : List ℕ).getD 0 0 = 0
    ∧ ∀ k, 1 ≤ k → k < ([1, 5] : List ℕ).length →
        ([0, 0] : List ℕ).getD k 0 = ([1, 5] : List ℕ).getD (k - 1) 0 - 1 :=
  prev_schedule_spec 8 2 DenoisingMode.linear [1, 5] [0, 0] (by decide) rfl

/-- C10 amended: in linear mode with `0 < S < T`, the entries of
`time_steps` at positions `0, …, S-1` — the only positions the sampling
loop reads — are valid indices into the length-`T` `alpha_bars`; in
quadratic mode the read entry at position `S-1` can equal `T` and read out
of bounds. -/
theorem linear_lookup_safe (T S : ℕ) (hS : 0 < S) (hT : S < T)
    (ts tsp : List ℕ)
    (h : buildSchedule T S DenoisingMode.linear = Except.ok (ts, tsp)) :
    ∀ k, k < S → ts.getD k 0 < T := by
  have ha : 0 < T / S := Nat.div_pos hT.le hS
  simp only [buildSchedule, if_neg hS.ne', if_neg ha.ne', Except.ok.injEq,
    Prod.mk.injEq] at h
  obtain ⟨hts, -⟩ := h
  subst hts
  intro k hk
  have hlen : k < (T + T / S - 1) / (T / S) :=
    lt_of_lt_of_le hk (linear_count_ge T S hS hT.le)
  have hk' : k < ((linearRaw T S).map (· + 1)).length := by
    simpa [linearRaw, rangeStep_length] using hlen
  have hk'' : k < (linearRaw T S).length := by
    simpa [linearRaw, rangeStep_length] using hlen
  rw [List.getD_eq_getElem _ _ hk', List.getElem_map]
  have hgetE : (linearRaw T S).getD k 0 = k * (T / S) :=
    rangeStep_getD T (T / S) k hlen
  rw [List.getD_eq_getElem _ _ hk''] at hgetE
  rw [hgetE]
  have hSa : S * (T / S) ≤ T := by
    rw [mul_comm]; exact Nat.div_mul_le_self T S
  have hka : (k + 1) * (T / S) ≤ S * (T / S) :=
    Nat.mul_le_mul_right _ (by omega)
  rw [add_one_mul] at hka
  by_cases ha1 : T / S = 1
  · rw [ha1]; omega
  · omega

/-- C10 witness: at `T = 1000`, `S = 20`, linear mode, every entry read by
the loop is a valid index into the length-1000 `alpha_bars`. -/
theorem linear_lookup_safe_witness :
    ([1, 51, 101, 151, 201, 251, 301, 351, 401, 451, 501, 551, 601, 651,
      701, 751, 801, 851, 901, 951] : List ℕ).getD 19 0 < 1000 :=
  linear_lookup_safe 1000 20 (by decide) (by decide)
    [1, 51, 101, 151, 201, 251, 301, 351, 401, 451, 501, 551, 601, 651,
     701, 751, 801, 851, 901, 951]
    [0, 0, 50, 100, 150, 200, 250, 300, 350, 400, 450, 500, 550, 600,
     650, 700, 750, 800, 850, 900] (by rfl) 19 (by decide)

/-- C5 amended: validation of the step count is partial: linear mode raises
at schedule-build time exactly when `S = 0` (Python `ZeroDivisionError`) or
`T // S = 0`, i.e. `S > T` or `T = 0` (Python `ValueError` from a zero
`range` step) — so linear mode with `S = T` is accepted — and quadratic
mode never raises for any step count, including `S ≥ T`. -/
theorem schedule_build_errors (T S : ℕ) :
    ((∃ e, buildSchedule T S DenoisingMode.linear = Except.error e)
        ↔ (S = 0 ∨ T / S = 0))
    ∧ ∃ p, buildSchedule T S DenoisingMode.quadratic = Except.ok p := by
  refine ⟨⟨?_, ?_⟩, ⟨_, rfl⟩⟩
  · rintro ⟨e, he⟩
    by_cases h0 : S = 0
    · exact Or.inl h0
    by_cases h1 : T / S = 0
    · exact Or.inr h1
    · simp [buildSchedule, h0, h1] at he
  · intro h
    by_cases h0 : S = 0
    · exact ⟨"ZeroDivisionError: integer division or modulo by zero",
        by simp [buildSchedule, h0]⟩
    · have h1 : T / S = 0 := h.resolve_left h0
      exact ⟨"ValueError: range() arg 3 must not be zero",
        by simp [buildSchedule, h0, h1]⟩

end DDF
